import Mathlib

/-
Verification development for the dwb-mcp-server-trello repository.

Embedded code:
- src/trello-client.ts, handleRequest (lines 30-44): the resilient request
  executor wrapping every Trello API call; retries on HTTP 429 after a fixed
  1000 ms delay, wraps other axios errors into a new Error with the message
  "Trello API error: <provider message or axios message>", and rethrows
  non-axios failures unchanged.
- src/trello-client.ts, constructor (lines 23-27): an axios request
  interceptor awaits the shared rate limiter before every dispatched request;
  in the embedding every dispatched attempt is therefore preceded by an
  admission event.
- src/trello-client.ts, createListWithFallback (lines 184-211),
  createDefaultLists (lines 166-182), createBoard (lines 141-164).
- The dual rate limiter (rate-limiter.ts, createTrelloRateLimiters /
  waitForAvailable) is imported by trello-client.ts but the file itself is
  not part of the repository snapshot; it is modelled from the spec
  (sections 3, 4.1): two windows of capacity 300 and 100 per 10000 ms,
  prune-check-record as one atomic step.

Conventions: time is Nat milliseconds; a unit of work is a stream
`Nat -> Outcome α` giving the result of each successive dispatch attempt;
general recursion in handleRequest is embedded with explicit fuel, where a
`none` result means the code is still retrying (it never returned).
-/

/-- Models the projections of an axios error that handleRequest inspects:
`error.response?.status` (none when there was no response, e.g. a transport
failure), `error.response?.data?.message` (the provider-supplied message,
if any), and `error.message` (the message of the Error object itself). -/
structure AxiosFailure where
  status : Option Nat
  dataMessage : Option String
  message : String
deriving DecidableEq

/-- A JavaScript thrown value as classified by the code: an axios error
(axios.isAxiosError is true), a plain Error instance, or any other thrown
value (modelled opaquely by a numeric tag). -/
inductive JsValue where
  | axiosObj (a : AxiosFailure)
  | errObj (msg : String)
  | rawVal (k : Nat)
deriving DecidableEq

/-- Models axios.isAxiosError: true exactly on axios errors. -/
def JsValue.isAxiosError : JsValue → Bool
  | .axiosObj _ => true
  | _ => false

/-- Models `error instanceof Error`: axios errors and plain Errors are
Error instances, other thrown values are not. -/
def JsValue.isErrorInstance : JsValue → Bool
  | .axiosObj _ => true
  | .errObj _ => true
  | .rawVal _ => false

/-- The `.message` property read off a thrown value once it is known to be
an Error instance. -/
def JsValue.errMessage : JsValue → String
  | .axiosObj a => a.message
  | .errObj m => m
  | .rawVal _ => ""

/-- Result of one dispatch attempt of a unit of work: it either fulfils
with a value or rejects with a thrown JavaScript value. -/
inductive Outcome (α : Type) where
  | ok (v : α)
  | raise (e : JsValue)
deriving DecidableEq

/-- Observable events of the executor: admission acquired from the shared
rate limiter (the axios interceptor of trello-client.ts lines 23-27),
dispatch of the unit of work (attempt number attached), and a timer delay
in milliseconds. -/
inductive Event where
  | acquireEv
  | dispatch (n : Nat)
  | delayMs (d : Nat)
deriving DecidableEq

/-- Embedding of handleRequest (trello-client.ts lines 30-44) plus the
rate-limiting interceptor (lines 23-27). `req k` is the outcome of the
k-th dispatch of the unit of work. Returns the event trace together with
the settled result; `none` means the retry loop has not returned within
the given fuel (the source recursion has no bound). On an axios error with
status 429 it delays 1000 ms and recurses; on any other axios error it
throws a fresh Error whose message is "Trello API error: " followed by
`error.response?.data?.message ?? error.message`; any non-axios thrown
value is rethrown unchanged. -/
def handleRequest {α : Type} : Nat → (Nat → Outcome α) → Nat → List Event × Option (Except JsValue α)
  | 0, _, _ => ([], none)
  | fuel+1, req, k =>
    match req k with
    | .ok v => ([.acquireEv, .dispatch k], some (.ok v))
    | .raise (.axiosObj a) =>
      if a.status = some 429 then
        (.acquireEv :: .dispatch k :: .delayMs 1000 :: (handleRequest fuel req (k+1)).1,
         (handleRequest fuel req (k+1)).2)
      else
        ([.acquireEv, .dispatch k],
         some (.error (.errObj ("Trello API error: " ++ (a.dataMessage.getD a.message)))))
    | .raise e => ([.acquireEv, .dispatch k], some (.error e))

/-- Checks that every dispatch event in a trace is immediately preceded by
an admission event: no work is dispatched without first passing the
rate-limiting interceptor. -/
def dispatchesAdmitted : List Event → Bool
  | [] => true
  | .acquireEv :: .dispatch _ :: rest => dispatchesAdmitted rest
  | .dispatch _ :: _ => false
  | _ :: rest => dispatchesAdmitted rest

/-- The event trace produced by n consecutive throttled attempts starting
at attempt index k: admission, dispatch, fixed 1000 ms delay, repeated. -/
def throttleTrace : Nat → Nat → List Event
  | 0, _ => []
  | n+1, k => .acquireEv :: .dispatch k :: .delayMs 1000 :: throttleTrace n (k+1)

/-- Occurrence count of an event in a trace. -/
def countEv (e : Event) : List Event → Nat
  | [] => 0
  | x :: rest => (if x = e then 1 else 0) + countEv e rest

/-- Models List-of-characters prefix testing, used to define substring
containment. -/
def charsStartsWith : List Char → List Char → Bool
  | _, [] => true
  | [], _ :: _ => false
  | a :: hay, b :: rest => decide (a = b) && charsStartsWith hay rest

/-- Models substring search: does the needle occur anywhere in the
haystack? -/
def charsContains (needle : List Char) : List Char → Bool
  | [] => charsStartsWith [] needle
  | c :: rest => charsStartsWith (c :: rest) needle || charsContains needle rest

/-- Models JavaScript String.prototype.includes for the non-empty literal
needles used by createListWithFallback. -/
def includesStr (s sub : String) : Bool :=
  charsContains sub.data s.data

/-- The catch condition of createListWithFallback (trello-client.ts lines
195-199): the thrown value is an Error instance whose message contains
"emoji", "character" or "invalid". -/
def fallbackTriggered (e : JsValue) : Bool :=
  e.isErrorInstance &&
    (includesStr e.errMessage "emoji" || includesStr e.errMessage "character" ||
      includesStr e.errMessage "invalid")

/-- Tags each event of a trace with the list name whose creation produced
it. -/
def tagTrace (nm : String) (tr : List Event) : List (String × Event) :=
  tr.map (fun ev => (nm, ev))

/-- Embedding of createListWithFallback (trello-client.ts lines 184-211).
`post nm` is the attempt-outcome stream of POSTing /lists with name `nm`.
The primary name is tried first through handleRequest; if that fails with
an Error instance whose message contains "emoji", "character" or
"invalid", one further handleRequest call is made with the fallback name
and its result is returned; any other failure is rethrown unchanged. The
returned trace tags every executor event with the name being created. -/
def createListWithFallback {α : Type} (fuel : Nat) (listName fallbackName : String)
    (post : String → Nat → Outcome α) : List (String × Event) × Option (Except JsValue α) :=
  match (handleRequest fuel (post listName) 0).2 with
  | none => (tagTrace listName (handleRequest fuel (post listName) 0).1, none)
  | some (.ok v) => (tagTrace listName (handleRequest fuel (post listName) 0).1, some (.ok v))
  | some (.error e) =>
    if fallbackTriggered e then
      (tagTrace listName (handleRequest fuel (post listName) 0).1 ++
        tagTrace fallbackName (handleRequest fuel (post fallbackName) 0).1,
       (handleRequest fuel (post fallbackName) 0).2)
    else
      (tagTrace listName (handleRequest fuel (post listName) 0).1, some (.error e))

/-- Embedding of the loop body of createDefaultLists (trello-client.ts
lines 166-182): for each template list name (with `fallbackNames[i]`
modelled as headD "" of the remaining fallback names, JavaScript's
undefined for an exhausted array being collapsed to ""), the creation is
attempted through createListWithFallback; a settled failure is caught
(console.error) and the loop continues with the next name; a `none`
(the nested executor never returned) means the whole loop never returns. -/
def defaultListsLoop {α : Type} (fuel : Nat) (post : String → Nat → Outcome α) :
    List String → List String → List (String × Event) × Option Unit
  | [], _ => ([], some ())
  | nm :: rest, fbs =>
    match (createListWithFallback fuel nm (fbs.headD "") post).2 with
    | none => ((createListWithFallback fuel nm (fbs.headD "") post).1, none)
    | some _ =>
      ((createListWithFallback fuel nm (fbs.headD "") post).1 ++
         (defaultListsLoop fuel post rest fbs.tail).1,
       (defaultListsLoop fuel post rest fbs.tail).2)

/-- Embedding of the body of createBoard (trello-client.ts lines 141-164):
after the board POST settles (`boardResult`), if default lists were not
explicitly disabled (`params.default_lists !== false`) the default lists
are created, and the board object is returned regardless of individual
list failures; a thrown board-creation failure propagates. The outer
handleRequest wrapper of line 142 applies on top of this body and is not
re-modelled here. -/
def createBoard {α β : Type} (fuel : Nat) (boardResult : Outcome β) (defaultLists : Bool)
    (lists fbs : List String) (post : String → Nat → Outcome α) :
    List (String × Event) × Option (Except JsValue β) :=
  match boardResult with
  | .raise e => ([], some (.error e))
  | .ok b =>
    if defaultLists then
      ((defaultListsLoop fuel post lists fbs).1,
       (defaultListsLoop fuel post lists fbs).2.map (fun _ => Except.ok b))
    else ([], some (.ok b))

/-- Modelled from the spec: the file rate-limiter.ts (createTrelloRateLimiters,
waitForAvailable) is imported by trello-client.ts but is not part of the
repository snapshot; this structure models a Rate Window of spec section 3:
a capacity, an interval duration, and the ordered sequence of grant
timestamps. -/
structure RateWindow where
  capacity : Nat
  intervalDuration : Nat
  timestamps : List Nat
deriving DecidableEq

/-- Modelled from the spec (section 4.1 step 1): prune a window's timestamp
sequence, keeping exactly the entries newer than `now - intervalDuration`,
i.e. those with `now < t + intervalDuration`. -/
def pruneTimestamps (now : Nat) (w : RateWindow) : List Nat :=
  w.timestamps.filter (fun t => decide (now < t + w.intervalDuration))

/-- Number of grant timestamps of a window lying within the trailing
interval ending at `now`. -/
def windowCount (now : Nat) (w : RateWindow) : Nat :=
  (pruneTimestamps now w).length

/-- Oldest (minimal) element of a timestamp sequence, none when empty. -/
def oldestOf : List Nat → Option Nat
  | [] => none
  | t :: ts =>
    match oldestOf ts with
    | none => some t
    | some m => some (if t ≤ m then t else m)

/-- Modelled from the spec (section 4.1 step 2): the wait required by a
saturated window, `intervalDuration - (now - oldestRemainingTimestamp)`. -/
def waitNeeded (now intervalDuration : Nat) (pruned : List Nat) : Nat :=
  match oldestOf pruned with
  | none => 0
  | some m => intervalDuration - (now - m)

/-- Modelled from the spec: the Dual Admission Controller owning the two
Rate Windows (section 3, Ownership). -/
structure DualLimiter where
  windowA : RateWindow
  windowB : RateWindow
deriving DecidableEq

/-- Modelled from the spec (section 4.1 Configuration): Window A holds 300
permits per 10-second interval (credential-pair ceiling), Window B holds
100 permits per 10-second interval (access-token ceiling). -/
def createTrelloRateLimiters : DualLimiter :=
  ⟨⟨300, 10000, []⟩, ⟨100, 10000, []⟩⟩

/-- Result of one atomic check-and-record step of acquire(): either both
windows had headroom and the grant was recorded in both, or the caller
must suspend for the returned number of milliseconds and retry. -/
inductive AcquireStep where
  | wait (d : Nat)
  | granted (s : DualLimiter)
deriving DecidableEq

/-- True exactly on a wait result. -/
def isWaitStep : AcquireStep → Bool
  | .wait _ => true
  | .granted _ => false

/-- Modelled from the spec (section 4.1 Algorithm, steps 1-3, and the
atomicity requirement of sections 4.1 and 5): one critical section of
acquire(). Both windows are pruned; if either pruned sequence has length
equal to its capacity the step yields the required wait (the larger of the
two waits when both windows are saturated); otherwise `now` is appended to
both sequences and the grant is returned. The whole check-and-record is a
single step, so interleaved concurrent callers each see it atomically. -/
def acquireStep (now : Nat) (s : DualLimiter) : AcquireStep :=
  if (pruneTimestamps now s.windowA).length = s.windowA.capacity ∨
      (pruneTimestamps now s.windowB).length = s.windowB.capacity then
    .wait (Nat.max
      (if (pruneTimestamps now s.windowA).length = s.windowA.capacity then
        waitNeeded now s.windowA.intervalDuration (pruneTimestamps now s.windowA)
      else 0)
      (if (pruneTimestamps now s.windowB).length = s.windowB.capacity then
        waitNeeded now s.windowB.intervalDuration (pruneTimestamps now s.windowB)
      else 0))
  else
    .granted
      ⟨⟨s.windowA.capacity, s.windowA.intervalDuration, pruneTimestamps now s.windowA ++ [now]⟩,
       ⟨s.windowB.capacity, s.windowB.intervalDuration, pruneTimestamps now s.windowB ++ [now]⟩⟩

/-- Modelled from the spec (section 4.1): the blocking acquire() loop,
with explicit fuel bounding the number of check-wait rounds; returns the
grant instant and the updated controller. -/
def acquireFuel : Nat → Nat → DualLimiter → Option (Nat × DualLimiter)
  | 0, _, _ => none
  | fuel+1, now, s =>
    match acquireStep now s with
    | .granted s2 => some (now, s2)
    | .wait d => acquireFuel fuel (now + d) s

/-- The controller state after one acquire() attempt at instant `now`:
updated on a grant, unchanged when the caller must wait. -/
def stepAt (now : Nat) (s : DualLimiter) : DualLimiter :=
  match acquireStep now s with
  | .wait _ => s
  | .granted s2 => s2

/-- The controller state after a sequence of acquire() attempts, one per
listed instant (arbitrary instants: any interleaving of callers). -/
def runCalls : List Nat → DualLimiter → DualLimiter
  | [], s => s
  | t :: ts, s => runCalls ts (stepAt t s)

/-- Well-formedness of the Trello controller state: the configured
capacities and interval, and at most capacity-many recorded timestamps per
window. -/
def trelloInv (s : DualLimiter) : Prop :=
  s.windowA.capacity = 300 ∧ s.windowA.intervalDuration = 10000 ∧
    s.windowA.timestamps.length ≤ 300 ∧
  s.windowB.capacity = 100 ∧ s.windowB.intervalDuration = 10000 ∧
    s.windowB.timestamps.length ≤ 100

instance (s : DualLimiter) : Decidable (trelloInv s) := by
  unfold trelloInv
  infer_instance

lemma filter_filter_of_imp {p q : Nat → Bool} (h : ∀ a, p a = true → q a = true) :
    ∀ l : List Nat, (l.filter q).filter p = l.filter p := by
  intro l
  induction l with
  | nil => rfl
  | cons a t ih =>
    cases hq : q a with
    | true =>
      cases hp : p a with
      | true => simp [List.filter_cons, hq, hp, ih]
      | false => simp [List.filter_cons, hq, hp, ih]
    | false =>
      cases hp : p a with
      | true => exact absurd (h a hp) (by simp [hq])
      | false => simp [List.filter_cons, hq, hp, ih]

lemma filter_length_lt_of_mem {p : Nat → Bool} {l : List Nat} {m : Nat}
    (hm : m ∈ l) (hp : p m = false) : (l.filter p).length < l.length := by
  induction l with
  | nil => cases hm
  | cons a t ih =>
    rcases List.mem_cons.mp hm with rfl | hmt
    · simp only [List.filter_cons, hp, List.length_cons]
      exact Nat.lt_succ_of_le (List.length_filter_le _ _)
    · cases hpa : p a with
      | true =>
        simp only [List.filter_cons, hpa, List.length_cons]
        exact Nat.succ_lt_succ (ih hmt)
      | false =>
        simp only [List.filter_cons, hpa, List.length_cons]
        exact Nat.lt_succ_of_lt (ih hmt)

lemma pruneTimestamps_later (w : RateWindow) {u v : Nat} (huv : u ≤ v) :
    pruneTimestamps v w =
      (pruneTimestamps u w).filter (fun t => decide (v < t + w.intervalDuration)) := by
  unfold pruneTimestamps
  refine (filter_filter_of_imp ?_ w.timestamps).symm
  intro a ha
  have hv : v < a + w.intervalDuration := of_decide_eq_true ha
  exact decide_eq_true (lt_of_le_of_lt huv hv)

lemma pruneTimestamps_length_mono (w : RateWindow) {u v : Nat} (huv : u ≤ v) :
    (pruneTimestamps v w).length ≤ (pruneTimestamps u w).length := by
  rw [pruneTimestamps_later w huv]
  exact List.length_filter_le _ _

lemma pruneTimestamps_length_le (now : Nat) (w : RateWindow) :
    (pruneTimestamps now w).length ≤ w.timestamps.length :=
  List.length_filter_le _ _

lemma pruneTimestamps_mem {now : Nat} {w : RateWindow} {t : Nat}
    (h : t ∈ pruneTimestamps now w) :
    t ∈ w.timestamps ∧ now < t + w.intervalDuration := by
  have h2 := List.mem_filter.mp h
  exact ⟨h2.1, of_decide_eq_true h2.2⟩

lemma oldestOf_none : ∀ {l : List Nat}, oldestOf l = none → l = [] := by
  intro l h
  cases l with
  | nil => rfl
  | cons a t =>
    unfold oldestOf at h
    cases h2 : oldestOf t <;> rw [h2] at h <;> simp at h

lemma oldestOf_spec : ∀ {l : List Nat}, l ≠ [] →
    ∃ m, oldestOf l = some m ∧ m ∈ l ∧ ∀ x ∈ l, m ≤ x := by
  intro l
  induction l with
  | nil => intro h; exact absurd rfl h
  | cons a t ih =>
    intro _
    cases ht : oldestOf t with
    | none =>
      have h0 : t = [] := oldestOf_none ht
      subst h0
      refine ⟨a, by simp [oldestOf], List.mem_cons_self a [], ?_⟩
      intro x hx
      rcases List.mem_cons.mp hx with rfl | hx2
      · exact Nat.le_refl _
      · cases hx2
    | some m =>
      have htne : t ≠ [] := by
        intro h0
        subst h0
        simp [oldestOf] at ht
      obtain ⟨m2, hm2, hmem, hle⟩ := ih htne
      have hmm : m = m2 := by
        rw [ht] at hm2
        exact Option.some.inj hm2
      subst hmm
      refine ⟨if a ≤ m then a else m, by unfold oldestOf; rw [ht], ?_, ?_⟩
      · by_cases hcase : a ≤ m
        · rw [if_pos hcase]; exact List.mem_cons_self a t
        · rw [if_neg hcase]; exact List.mem_cons_of_mem a hmem
      · intro x hx
        by_cases hcase : a ≤ m
        · rw [if_pos hcase]
          rcases List.mem_cons.mp hx with rfl | hx2
          · exact Nat.le_refl _
          · exact Nat.le_trans hcase (hle x hx2)
        · rw [if_neg hcase]
          rcases List.mem_cons.mp hx with rfl | hx2
          · exact Nat.le_of_lt (Nat.lt_of_not_le hcase)
          · exact hle x hx2

lemma handleRequest_trace_head {α : Type} (fuel : Nat) (req : Nat → Outcome α) (k : Nat) :
    ∃ r, (handleRequest (fuel+1) req k).1 = .acquireEv :: .dispatch k :: r := by
  cases h : req k with
  | ok v => exact ⟨[], by simp [handleRequest, h]⟩
  | raise e =>
    cases e with
    | axiosObj a =>
      by_cases h429 : a.status = some 429
      · exact ⟨.delayMs 1000 :: (handleRequest fuel req (k+1)).1,
          by simp [handleRequest, h, h429]⟩
      · exact ⟨[], by simp [handleRequest, h, h429]⟩
    | errObj m => exact ⟨[], by simp [handleRequest, h]⟩
    | rawVal n => exact ⟨[], by simp [handleRequest, h]⟩

lemma dispatchesAdmitted_handleRequest {α : Type} :
    ∀ (fuel : Nat) (req : Nat → Outcome α) (k : Nat),
      dispatchesAdmitted (handleRequest fuel req k).1 = true := by
  intro fuel
  induction fuel with
  | zero => intro req k; rfl
  | succ n ih =>
    intro req k
    cases h : req k with
    | ok v => simp [handleRequest, h, dispatchesAdmitted]
    | raise e =>
      cases e with
      | axiosObj a =>
        by_cases h429 : a.status = some 429
        · simp only [handleRequest, h, h429, if_pos]
          simp only [dispatchesAdmitted]
          exact ih req (k+1)
        · simp [handleRequest, h, h429, dispatchesAdmitted]
      | errObj m => simp [handleRequest, h, dispatchesAdmitted]
      | rawVal j => simp [handleRequest, h, dispatchesAdmitted]

lemma handleRequest_throttled {α : Type} (req : Nat → Outcome α)
    (H : ∀ k, ∃ a, req k = .raise (.axiosObj a) ∧ a.status = some 429) :
    ∀ n k, handleRequest n req k = (throttleTrace n k, none) := by
  intro n
  induction n with
  | zero => intro k; rfl
  | succ m ih =>
    intro k
    obtain ⟨a, ha, hs⟩ := H k
    simp [handleRequest, ha, hs, ih (k+1), throttleTrace]

lemma countEv_throttleTrace_acquire : ∀ n k, countEv .acquireEv (throttleTrace n k) = n := by
  intro n
  induction n with
  | zero => intro k; rfl
  | succ m ih =>
    intro k
    simp [throttleTrace, countEv, ih (k+1)]
    omega

lemma countEv_throttleTrace_delay : ∀ n k, countEv (.delayMs 1000) (throttleTrace n k) = n := by
  intro n
  induction n with
  | zero => intro k; rfl
  | succ m ih =>
    intro k
    simp [throttleTrace, countEv, ih (k+1)]
    omega

lemma dispatch_mem_throttleTrace : ∀ n k m, k ≤ m → m < k + n →
    Event.dispatch m ∈ throttleTrace n k := by
  intro n
  induction n with
  | zero => intro k m h1 h2; omega
  | succ j ih =>
    intro k m h1 h2
    by_cases hm : m = k
    · subst hm
      simp [throttleTrace]
    · have h3 : k + 1 ≤ m := by omega
      have h4 : m < (k + 1) + j := by omega
      simp only [throttleTrace]
      exact List.mem_cons_of_mem _ (List.mem_cons_of_mem _
        (List.mem_cons_of_mem _ (ih (k+1) m h3 h4)))

lemma dispatchesAdmitted_throttleTrace : ∀ n k,
    dispatchesAdmitted (throttleTrace n k) = true := by
  intro n
  induction n with
  | zero => intro k; rfl
  | succ m ih =>
    intro k
    simp [throttleTrace, dispatchesAdmitted, ih (k+1)]

/-- C3 (counterexample): a transport failure — an axios error with no
response (connection reset), hence not originating from the provider's
response — is NOT propagated unchanged by handleRequest: it is
reclassified as a fresh Error with the "Trello API error: " message. -/
theorem c3_transport_reclassified_counterexample :
    (handleRequest 1
        (fun _ => (Outcome.raise (.axiosObj ⟨none, none, "read ECONNRESET"⟩) : Outcome Nat))
        0).2 =
      some (.error (.errObj "Trello API error: read ECONNRESET")) ∧
    (handleRequest 1
        (fun _ => (Outcome.raise (.axiosObj ⟨none, none, "read ECONNRESET"⟩) : Outcome Nat))
        0).2 ≠
      some (.error (.axiosObj ⟨none, none, "read ECONNRESET"⟩)) := by
  constructor
  · rfl
  · intro h
    rw [show (handleRequest 1
        (fun _ => (Outcome.raise (.axiosObj ⟨none, none, "read ECONNRESET"⟩) : Outcome Nat))
        0).2 = some (.error (.errObj "Trello API error: read ECONNRESET")) from rfl] at h
    have h2 := Option.some.inj h
    cases h2

/-- C3 (amended): every unit of work failing with a non-axios thrown value
(a plain Error or any other thrown value, e.g. a programming error) is
propagated by handleRequest exactly unchanged, with a single dispatch and
no retry delay; axios failures without a provider response are instead
reclassified (see the counterexample). -/
theorem c3_nonaxios_propagated {α : Type} (fuel k : Nat) (req : Nat → Outcome α) (e : JsValue)
    (h1 : req k = .raise e) (h2 : e.isAxiosError = false) :
    handleRequest (fuel+1) req k = ([.acquireEv, .dispatch k], some (.error e)) := by
  cases e with
  | axiosObj a => simp [JsValue.isAxiosError] at h2
  | errObj m => simp [handleRequest, h1]
  | rawVal n => simp [handleRequest, h1]

/-- C3 (witness): the amended theorem at a concrete non-Error thrown
value. -/
theorem c3_nonaxios_propagated_witness :
    handleRequest 3 (fun _ => (Outcome.raise (.rawVal 7) : Outcome Nat)) 0 =
      ([.acquireEv, .dispatch 0], some (.error (.rawVal 7))) :=
  c3_nonaxios_propagated 2 0 _ (.rawVal 7) rfl rfl

/-- C4: a unit of work failing with a non-throttle provider error makes
handleRequest fail on the very first attempt (single dispatch, no delay,
no retry) with an Error carrying the provider's message verbatim inside
the fixed "Trello API error: " prefix; when the provider supplied no
message, the axios error's own message is used as the fallback. -/
theorem c4_provider_error_no_retry {α : Type} (fuel k : Nat) (req : Nat → Outcome α)
    (a : AxiosFailure) (h1 : req k = .raise (.axiosObj a)) (h2 : a.status ≠ some 429) :
    handleRequest (fuel+1) req k =
      ([.acquireEv, .dispatch k],
       some (.error (.errObj ("Trello API error: " ++ a.dataMessage.getD a.message)))) ∧
    (∀ m, a.dataMessage = some m →
      "Trello API error: " ++ a.dataMessage.getD a.message = "Trello API error: " ++ m) ∧
    (a.dataMessage = none →
      "Trello API error: " ++ a.dataMessage.getD a.message =
        "Trello API error: " ++ a.message) := by
  refine ⟨by simp [handleRequest, h1, h2], ?_, ?_⟩
  · intro m hm
    rw [hm]
    rfl
  · intro hm
    rw [hm]
    rfl

/-- C4 (witness): a 400 response whose body message is "invalid board id"
yields, with no retry, an Error whose message carries exactly that
provider message. -/
theorem c4_provider_error_no_retry_witness :
    handleRequest 1
        (fun _ => (Outcome.raise (.axiosObj
          ⟨some 400, some "invalid board id", "Request failed with status code 400"⟩) : Outcome Nat))
        0 =
      ([.acquireEv, .dispatch 0],
       some (.error (.errObj "Trello API error: invalid board id"))) :=
  (c4_provider_error_no_retry 0 0
    (fun _ => (Outcome.raise (.axiosObj
      ⟨some 400, some "invalid board id", "Request failed with status code 400"⟩) : Outcome Nat))
    ⟨some 400, some "invalid board id", "Request failed with status code 400"⟩
    rfl (by decide)).1

/-- C5: a unit of work throttled (HTTP 429) on the first attempt and
succeeding with value v on the second makes handleRequest return exactly
v, with exactly one 1000 ms delay between the two dispatched attempts. -/
theorem c5_retry_once_returns_second {α : Type} (fuel : Nat) (req : Nat → Outcome α)
    (a : AxiosFailure) (v : α)
    (h0 : req 0 = .raise (.axiosObj a)) (hs : a.status = some 429) (h1 : req 1 = .ok v) :
    handleRequest (fuel+2) req 0 =
      ([.acquireEv, .dispatch 0, .delayMs 1000, .acquireEv, .dispatch 1],
       some (.ok v)) ∧
    countEv (.delayMs 1000)
      [Event.acquireEv, .dispatch 0, .delayMs 1000, .acquireEv, .dispatch 1] = 1 := by
  constructor
  · show handleRequest (fuel+1+1) req 0 = _
    simp [handleRequest, h0, hs, h1]
  · rfl

/-- C5 (witness): the theorem at a concrete two-attempt unit of work. -/
theorem c5_retry_once_returns_second_witness :
    handleRequest 2
        (fun k => if k = 0
          then (Outcome.raise (.axiosObj ⟨some 429, none, "rate limited"⟩) : Outcome Nat)
          else .ok 42)
        0 =
      ([.acquireEv, .dispatch 0, .delayMs 1000, .acquireEv, .dispatch 1],
       some (.ok 42)) :=
  (c5_retry_once_returns_second 0 _ ⟨some 429, none, "rate limited"⟩ 42 rfl rfl rfl).1

/-- C6: a unit of work throttled on every attempt is retried with no
maximum retry count: for every fuel n the executor has still not settled
(`none`), its trace is n rounds of admission-dispatch-delay, it contains
exactly n admissions (one fresh permit acquisition per attempt) and n
fixed 1000 ms delays, for every m < n the m-th attempt was dispatched, and
no attempt was dispatched without a directly preceding admission. -/
theorem c6_unbounded_retry {α : Type} (req : Nat → Outcome α)
    (H : ∀ k, ∃ a, req k = .raise (.axiosObj a) ∧ a.status = some 429) :
    ∀ n : Nat,
      handleRequest n req 0 = (throttleTrace n 0, none) ∧
      countEv .acquireEv (throttleTrace n 0) = n ∧
      countEv (.delayMs 1000) (throttleTrace n 0) = n ∧
      (∀ m, m < n → Event.dispatch m ∈ throttleTrace n 0) ∧
      dispatchesAdmitted (throttleTrace n 0) = true := by
  intro n
  refine ⟨handleRequest_throttled req H n 0, countEv_throttleTrace_acquire n 0,
    countEv_throttleTrace_delay n 0, ?_, dispatchesAdmitted_throttleTrace n 0⟩
  intro m hm
  exact dispatch_mem_throttleTrace n 0 m (Nat.zero_le m) (by omega)

/-- C6 (witness): the theorem at a concrete always-throttled unit of work
and fuel 3. -/
theorem c6_unbounded_retry_witness :
    handleRequest 3 (fun _ => (Outcome.raise (.axiosObj ⟨some 429, none, "rate"⟩) : Outcome Nat)) 0 =
      (throttleTrace 3 0, none) ∧
    countEv .acquireEv (throttleTrace 3 0) = 3 := by
  have h := c6_unbounded_retry
    (fun _ => (Outcome.raise (.axiosObj ⟨some 429, none, "rate"⟩) : Outcome Nat))
    (fun k => ⟨⟨some 429, none, "rate"⟩, rfl, rfl⟩) 3
  exact ⟨h.1, h.2.1⟩

/-- C9: createListWithFallback first attempts creation with the primary
name; when that settles successfully the fallback is never tried; when it
fails with a thrown value satisfying the catch condition (an Error
instance whose message contains "emoji", "character" or "invalid"),
exactly one further rate-limited creation call is made with the fallback
name and its outcome — success or failure — is returned as is; any other
failure is rethrown exactly unchanged with the fallback name never tried. -/
theorem c9_fallback_iff {α : Type} (fuel : Nat) (nm fb : String)
    (post : String → Nat → Outcome α) :
    (∀ tr v, handleRequest fuel (post nm) 0 = (tr, some (.ok v)) →
      createListWithFallback fuel nm fb post = (tagTrace nm tr, some (.ok v))) ∧
    (∀ tr e, handleRequest fuel (post nm) 0 = (tr, some (.error e)) →
      fallbackTriggered e = true →
      createListWithFallback fuel nm fb post =
        (tagTrace nm tr ++ tagTrace fb (handleRequest fuel (post fb) 0).1,
         (handleRequest fuel (post fb) 0).2)) ∧
    (∀ tr e, handleRequest fuel (post nm) 0 = (tr, some (.error e)) →
      fallbackTriggered e = false →
      createListWithFallback fuel nm fb post = (tagTrace nm tr, some (.error e))) := by
  refine ⟨?_, ?_, ?_⟩
  · intro tr v h
    unfold createListWithFallback
    rw [h]
  · intro tr e h htrig
    unfold createListWithFallback
    rw [h]
    simp [htrig]
  · intro tr e h htrig
    unfold createListWithFallback
    rw [h]
    simp [htrig]

/-- C9 (witness): a primary failure whose message contains "invalid"
triggers exactly one fallback creation, whose success is returned. -/
theorem c9_fallback_iff_witness :
    createListWithFallback 1 "Primary List" "Fallback List"
        (fun s => fun _ =>
          if s = "Primary List"
          then (Outcome.raise (.errObj "invalid character in name") : Outcome Nat)
          else .ok 5) =
      ([("Primary List", .acquireEv), ("Primary List", .dispatch 0),
        ("Fallback List", .acquireEv), ("Fallback List", .dispatch 0)],
       some (.ok 5)) := by
  have h := (c9_fallback_iff 1 "Primary List" "Fallback List"
    (fun s => fun _ =>
      if s = "Primary List"
      then (Outcome.raise (.errObj "invalid character in name") : Outcome Nat)
      else .ok 5)).2.1
    [.acquireEv, .dispatch 0] (.errObj "invalid character in name")
    (by rfl) (by decide)
  exact h.trans (by rfl)

lemma clwf_mem_primary_dispatch {α : Type} (fuel : Nat) (nm fb : String)
    (post : String → Nat → Outcome α)
    (h : ((createListWithFallback fuel nm fb post).2).isSome = true) :
    (nm, Event.dispatch 0) ∈ (createListWithFallback fuel nm fb post).1 := by
  cases fuel with
  | zero =>
    exfalso
    have h0 : (handleRequest 0 (post nm) 0).2 = (none : Option (Except JsValue α)) := rfl
    unfold createListWithFallback at h
    rw [h0] at h
    simp at h
  | succ n =>
    obtain ⟨r, hr⟩ := handleRequest_trace_head n (post nm) 0
    have hmem : (nm, Event.dispatch 0) ∈ tagTrace nm (handleRequest (n+1) (post nm) 0).1 := by
      rw [hr]
      unfold tagTrace
      simp
    unfold createListWithFallback
    cases h2 : (handleRequest (n+1) (post nm) 0).2 with
    | none =>
      exfalso
      unfold createListWithFallback at h
      rw [h2] at h
      simp at h
    | some res =>
      cases res with
      | ok v => exact hmem
      | error e =>
        by_cases htrig : fallbackTriggered e
        · simp only [htrig, if_pos]
          exact List.mem_append_left _ hmem
        · simp only [htrig, if_neg, not_false_eq_true]
          exact hmem

lemma defaultListsLoop_total {α : Type} (fuel : Nat) (post : String → Nat → Outcome α) :
    ∀ (lists fbs : List String),
      (∀ nm, nm ∈ lists → ∀ fb, fb ∈ ("" :: fbs) →
        ((createListWithFallback fuel nm fb post).2).isSome = true) →
      (defaultListsLoop fuel post lists fbs).2 = some () ∧
      List.Sublist (lists.map (fun nm => (nm, Event.dispatch 0)))
        (defaultListsLoop fuel post lists fbs).1 := by
  intro lists
  induction lists with
  | nil =>
    intro fbs _
    exact ⟨rfl, by simp [defaultListsLoop]⟩
  | cons nm rest ih =>
    intro fbs H
    have hmemfb : fbs.headD "" ∈ ("" :: fbs) := by
      cases fbs with
      | nil => simp
      | cons f t => simp
    have hsome := H nm (List.mem_cons_self nm rest) (fbs.headD "") hmemfb
    have Hrest : ∀ nm2, nm2 ∈ rest → ∀ fb, fb ∈ ("" :: fbs.tail) →
        ((createListWithFallback fuel nm2 fb post).2).isSome = true := by
      intro nm2 hnm2 fb hfb
      refine H nm2 (List.mem_cons_of_mem nm hnm2) fb ?_
      rcases List.mem_cons.mp hfb with rfl | hfb2
      · exact List.mem_cons_self _ _
      · exact List.mem_cons_of_mem _ (List.tail_subset fbs hfb2)
    obtain ⟨ih1, ih2⟩ := ih fbs.tail Hrest
    cases hres : (createListWithFallback fuel nm (fbs.headD "") post).2 with
    | none =>
      exfalso
      rw [hres] at hsome
      simp at hsome
    | some r =>
      constructor
      · unfold defaultListsLoop
        rw [hres]
        exact ih1
      · unfold defaultListsLoop
        rw [hres]
        simp only [List.map_cons]
        have h1 : List.Sublist [(nm, Event.dispatch 0)]
            (createListWithFallback fuel nm (fbs.headD "") post).1 :=
          List.singleton_sublist.mpr
            (clwf_mem_primary_dispatch fuel nm (fbs.headD "") post (by rw [hres]; rfl))
        exact List.Sublist.append h1 ih2

/-- C10: when every individual default-list creation settles (successfully
or with a caught failure), createDefaultLists completes normally — the
per-list try/catch means it never propagates a list-creation failure — and
every template list name is attempted, in template order (the sequence of
primary-name first dispatches is an ordered sublist of the loop's trace);
consequently createBoard still returns the created board even when some
default list creations failed. -/
theorem c10_default_lists_failures_contained {α β : Type} (fuel : Nat)
    (post : String → Nat → Outcome α) (lists fbs : List String) (b : β)
    (H : ∀ nm, nm ∈ lists → ∀ fb, fb ∈ ("" :: fbs) →
      ((createListWithFallback fuel nm fb post).2).isSome = true) :
    (defaultListsLoop fuel post lists fbs).2 = some () ∧
    List.Sublist (lists.map (fun nm => (nm, Event.dispatch 0)))
      (defaultListsLoop fuel post lists fbs).1 ∧
    createBoard fuel (.ok b) true lists fbs post =
      ((defaultListsLoop fuel post lists fbs).1, some (.ok b)) := by
  obtain ⟨h1, h2⟩ := defaultListsLoop_total fuel post lists fbs H
  refine ⟨h1, h2, ?_⟩
  unfold createBoard
  rw [h1]
  rfl

/-- C10 (witness): with a first list whose creation fails outright (its
message triggers the fallback, which then fails with a non-Error thrown
value), the second list is still attempted and the board is returned. -/
theorem c10_default_lists_failures_contained_witness :
    createBoard 1
        (Outcome.ok 9) true ["Alpha", "Beta"] ["Alpha2", "Beta2"]
        (fun s => fun _ =>
          if s = "Alpha" then (Outcome.raise (.errObj "invalid name") : Outcome Nat)
          else if s = "Alpha2" then .raise (.rawVal 3)
          else .ok 1) =
      ((defaultListsLoop 1
          (fun s => fun _ =>
            if s = "Alpha" then (Outcome.raise (.errObj "invalid name") : Outcome Nat)
            else if s = "Alpha2" then .raise (.rawVal 3)
            else .ok 1) ["Alpha", "Beta"] ["Alpha2", "Beta2"]).1,
       some (.ok 9)) ∧
    List.Sublist ([("Alpha", Event.dispatch 0), ("Beta", Event.dispatch 0)])
      (defaultListsLoop 1
        (fun s => fun _ =>
          if s = "Alpha" then (Outcome.raise (.errObj "invalid name") : Outcome Nat)
          else if s = "Alpha2" then .raise (.rawVal 3)
          else .ok 1) ["Alpha", "Beta"] ["Alpha2", "Beta2"]).1 := by
  have h := c10_default_lists_failures_contained 1
    (fun s => fun _ =>
      if s = "Alpha" then (Outcome.raise (.errObj "invalid name") : Outcome Nat)
      else if s = "Alpha2" then .raise (.rawVal 3)
      else .ok 1) ["Alpha", "Beta"] ["Alpha2", "Beta2"] 9
    (by decide)
  exact ⟨h.2.2, h.2.1⟩

lemma trelloInv_stepAt (now : Nat) (s : DualLimiter) (h : trelloInv s) :
    trelloInv (stepAt now s) := by
  obtain ⟨hA1, hA2, hA3, hB1, hB2, hB3⟩ := h
  unfold stepAt acquireStep
  by_cases hc : (pruneTimestamps now s.windowA).length = s.windowA.capacity ∨
      (pruneTimestamps now s.windowB).length = s.windowB.capacity
  · rw [if_pos hc]
    exact ⟨hA1, hA2, hA3, hB1, hB2, hB3⟩
  · rw [if_neg hc]
    push_neg at hc
    obtain ⟨hc1, hc2⟩ := hc
    have hpa := pruneTimestamps_length_le now s.windowA
    have hpb := pruneTimestamps_length_le now s.windowB
    refine ⟨hA1, hA2, ?_, hB1, hB2, ?_⟩
    · show (pruneTimestamps now s.windowA ++ [now]).length ≤ 300
      rw [List.length_append]
      simp only [List.length_singleton]
      omega
    · show (pruneTimestamps now s.windowB ++ [now]).length ≤ 100
      rw [List.length_append]
      simp only [List.length_singleton]
      omega

lemma trelloInv_runCalls : ∀ (ts : List Nat) (s : DualLimiter), trelloInv s →
    trelloInv (runCalls ts s) := by
  intro ts
  induction ts with
  | nil => intro s h; exact h
  | cons t ts2 ih =>
    intro s h
    exact ih _ (trelloInv_stepAt t s h)

/-- C1: for every sequence of acquire() calls at arbitrary instants
starting from the freshly configured Trello controller, at every instant
the number of grant timestamps within the trailing 10-second interval is
at most 300 in the credential-pair window and at most 100 in the
access-token window; and every dispatched request of the executor is
immediately preceded by an admission from the rate limiter. -/
theorem c1_window_ceilings :
    (∀ (ts : List Nat) (now : Nat),
      windowCount now (runCalls ts createTrelloRateLimiters).windowA ≤ 300 ∧
      windowCount now (runCalls ts createTrelloRateLimiters).windowB ≤ 100) ∧
    (∀ (α : Type) (fuel : Nat) (req : Nat → Outcome α) (k : Nat),
      dispatchesAdmitted (handleRequest fuel req k).1 = true) := by
  constructor
  · intro ts now
    obtain ⟨_, _, h3, _, _, h6⟩ := trelloInv_runCalls ts createTrelloRateLimiters (by decide)
    constructor
    · exact Nat.le_trans (pruneTimestamps_length_le now _) h3
    · exact Nat.le_trans (pruneTimestamps_length_le now _) h6
  · intro α fuel req k
    exact dispatchesAdmitted_handleRequest fuel req k

lemma acquireStep_wait_of_satB (now : Nat) (s : DualLimiter)
    (h : (pruneTimestamps now s.windowB).length = s.windowB.capacity) :
    isWaitStep (acquireStep now s) = true := by
  unfold acquireStep
  rw [if_pos (Or.inr h)]
  rfl

lemma acquireStep_wait_of_satA (now : Nat) (s : DualLimiter)
    (h : (pruneTimestamps now s.windowA).length = s.windowA.capacity) :
    isWaitStep (acquireStep now s) = true := by
  unfold acquireStep
  rw [if_pos (Or.inl h)]
  rfl

lemma replicate_append_one (k t : Nat) :
    List.replicate k t ++ [t] = List.replicate (k+1) t := by
  induction k with
  | zero => rfl
  | succ j ih =>
    rw [List.replicate_succ, List.cons_append, ih]
    rfl

lemma pruneTimestamps_replicate (c k t : Nat) :
    pruneTimestamps t (⟨c, 10000, List.replicate k t⟩ : RateWindow) = List.replicate k t := by
  unfold pruneTimestamps
  apply List.filter_eq_self.mpr
  intro a ha
  have ha2 : a = t := List.eq_of_mem_replicate ha
  subst ha2
  simp only [decide_eq_true_eq]
  omega

lemma runCalls_replicate (t : Nat) : ∀ (N k : Nat), k + N ≤ 100 →
    runCalls (List.replicate N t)
      ⟨⟨300, 10000, List.replicate k t⟩, ⟨100, 10000, List.replicate k t⟩⟩ =
    ⟨⟨300, 10000, List.replicate (k+N) t⟩, ⟨100, 10000, List.replicate (k+N) t⟩⟩ := by
  intro N
  induction N with
  | zero =>
    intro k h
    simp [runCalls]
  | succ M ih =>
    intro k h
    rw [List.replicate_succ]
    have hcond : ¬ ((pruneTimestamps t
          ((⟨⟨300, 10000, List.replicate k t⟩, ⟨100, 10000, List.replicate k t⟩⟩ :
            DualLimiter)).windowA).length =
        ((⟨⟨300, 10000, List.replicate k t⟩, ⟨100, 10000, List.replicate k t⟩⟩ :
            DualLimiter)).windowA.capacity ∨
        (pruneTimestamps t
          ((⟨⟨300, 10000, List.replicate k t⟩, ⟨100, 10000, List.replicate k t⟩⟩ :
            DualLimiter)).windowB).length =
        ((⟨⟨300, 10000, List.replicate k t⟩, ⟨100, 10000, List.replicate k t⟩⟩ :
            DualLimiter)).windowB.capacity) := by
      show ¬ ((pruneTimestamps t (⟨300, 10000, List.replicate k t⟩ : RateWindow)).length = 300 ∨
        (pruneTimestamps t (⟨100, 10000, List.replicate k t⟩ : RateWindow)).length = 100)
      rw [pruneTimestamps_replicate, pruneTimestamps_replicate, List.length_replicate]
      omega
    have hgrant : acquireStep t
        ⟨⟨300, 10000, List.replicate k t⟩, ⟨100, 10000, List.replicate k t⟩⟩ =
        .granted ⟨⟨300, 10000, List.replicate (k+1) t⟩, ⟨100, 10000, List.replicate (k+1) t⟩⟩ := by
      unfold acquireStep
      rw [if_neg hcond]
      show AcquireStep.granted
          ⟨⟨300, 10000, pruneTimestamps t (⟨300, 10000, List.replicate k t⟩ : RateWindow) ++ [t]⟩,
           ⟨100, 10000, pruneTimestamps t (⟨100, 10000, List.replicate k t⟩ : RateWindow) ++ [t]⟩⟩ = _
      rw [pruneTimestamps_replicate, pruneTimestamps_replicate, replicate_append_one]
    have hstep : stepAt t
        ⟨⟨300, 10000, List.replicate k t⟩, ⟨100, 10000, List.replicate k t⟩⟩ =
        ⟨⟨300, 10000, List.replicate (k+1) t⟩, ⟨100, 10000, List.replicate (k+1) t⟩⟩ := by
      unfold stepAt
      rw [hgrant]
    show runCalls (List.replicate M t)
        (stepAt t ⟨⟨300, 10000, List.replicate k t⟩, ⟨100, 10000, List.replicate k t⟩⟩) = _
    rw [hstep]
    have harith : k + (M + 1) = (k + 1) + M := by omega
    rw [harith]
    exact ih (k+1) (by omega)

/-- C2: the check-and-record of acquire() is one atomic critical section.
First conjunct (race for the last slot): from any well-formed controller
state in which the access-token window has exactly one slot left (99 of
100 permits used), if one caller's atomic step succeeds, a second caller's
atomic step at the same instant is forced to wait — both can never
succeed. Second conjunct: N interleaved callers at the same instant, each
of whose work would succeed on its first attempt, record exactly N grant
timestamps in each window (one per caller in both windows), with no
overshoot of either ceiling at any instant. -/
theorem c2_atomic_admission :
    (∀ (now : Nat) (s s2 : DualLimiter), trelloInv s →
      windowCount now s.windowB = 99 →
      acquireStep now s = .granted s2 →
      isWaitStep (acquireStep now s2) = true) ∧
    (∀ (N t : Nat), N ≤ 100 →
      (runCalls (List.replicate N t) createTrelloRateLimiters).windowA.timestamps =
        List.replicate N t ∧
      (runCalls (List.replicate N t) createTrelloRateLimiters).windowB.timestamps =
        List.replicate N t ∧
      ∀ u : Nat,
        windowCount u (runCalls (List.replicate N t) createTrelloRateLimiters).windowA ≤ 300 ∧
        windowCount u (runCalls (List.replicate N t) createTrelloRateLimiters).windowB ≤ 100) := by
  constructor
  · intro now s s2 hinv h99 hstep
    obtain ⟨hA1, hA2, hA3, hB1, hB2, hB3⟩ := hinv
    unfold acquireStep at hstep
    by_cases hc : (pruneTimestamps now s.windowA).length = s.windowA.capacity ∨
        (pruneTimestamps now s.windowB).length = s.windowB.capacity
    · rw [if_pos hc] at hstep
      exact AcquireStep.noConfusion hstep
    · rw [if_neg hc] at hstep
      have hs2 := (AcquireStep.granted.inj hstep).symm
      have hidem : (pruneTimestamps now s.windowB).filter
          (fun t2 => decide (now < t2 + s.windowB.intervalDuration)) =
          pruneTimestamps now s.windowB := by
        unfold pruneTimestamps
        exact filter_filter_of_imp (fun a ha => ha) s.windowB.timestamps
      have hBsat : (pruneTimestamps now s2.windowB).length = s2.windowB.capacity := by
        rw [hs2]
        show ((pruneTimestamps now s.windowB ++ [now]).filter
          (fun t2 => decide (now < t2 + s.windowB.intervalDuration))).length =
          s.windowB.capacity
        rw [List.filter_append, hidem]
        have hnow : List.filter (fun t2 => decide (now < t2 + s.windowB.intervalDuration))
            [now] = [now] := by
          apply List.filter_eq_self.mpr
          intro a ha
          have ha2 : a = now := by simpa using ha
          subst ha2
          simp only [decide_eq_true_eq]
          rw [hB2]
          omega
        rw [hnow, List.length_append]
        unfold windowCount at h99
        rw [hB1]
        simp only [List.length_singleton]
        omega
      exact acquireStep_wait_of_satB now s2 hBsat
  · intro N t hN
    have h0 : createTrelloRateLimiters =
        ⟨⟨300, 10000, List.replicate 0 t⟩, ⟨100, 10000, List.replicate 0 t⟩⟩ := rfl
    rw [h0, runCalls_replicate t N 0 (by omega)]
    refine ⟨by simp, by simp, ?_⟩
    intro u
    constructor
    · exact Nat.le_trans (pruneTimestamps_length_le u _)
        (by simp [List.length_replicate]; omega)
    · exact Nat.le_trans (pruneTimestamps_length_le u _)
        (by simp [List.length_replicate]; omega)

/-- C2 (witness): with 99 of 100 token-window permits used, a first
atomic acquire succeeds and the second caller's step at the same instant
must wait; and 3 same-instant callers on a fresh controller record
exactly 3 timestamps in the token window. -/
theorem c2_atomic_admission_witness :
    isWaitStep (acquireStep 5
      ⟨⟨300, 10000, [5]⟩, ⟨100, 10000, List.replicate 99 5 ++ [5]⟩⟩) = true ∧
    (runCalls (List.replicate 3 7) createTrelloRateLimiters).windowB.timestamps =
      List.replicate 3 7 := by
  constructor
  · exact c2_atomic_admission.1 5
      ⟨⟨300, 10000, []⟩, ⟨100, 10000, List.replicate 99 5⟩⟩
      ⟨⟨300, 10000, [5]⟩, ⟨100, 10000, List.replicate 99 5 ++ [5]⟩⟩
      (by decide) (by decide) (by decide)
  · exact (c2_atomic_admission.2 3 7 (by decide)).2.1

lemma waitNeeded_eq {now intervalDuration : Nat} {l : List Nat} {m : Nat}
    (h : oldestOf l = some m) :
    waitNeeded now intervalDuration l = intervalDuration - (now - m) := by
  unfold waitNeeded
  rw [h]

lemma pruneTimestamps_stable (w : RateWindow) {now u m : Nat} (hnu : now ≤ u)
    (hmin : ∀ x ∈ pruneTimestamps now w, m ≤ x)
    (hu : u < m + w.intervalDuration) :
    pruneTimestamps u w = pruneTimestamps now w := by
  unfold pruneTimestamps
  apply List.filter_congr
  intro t ht
  by_cases hkeep : now < t + w.intervalDuration
  · have htp : t ∈ pruneTimestamps now w := by
      unfold pruneTimestamps
      exact List.mem_filter.mpr ⟨ht, decide_eq_true hkeep⟩
    have hmt : m ≤ t := hmin t htp
    have h2 : u < t + w.intervalDuration := by omega
    rw [decide_eq_true h2, decide_eq_true hkeep]
  · have h2 : ¬ u < t + w.intervalDuration := by omega
    rw [decide_eq_false h2, decide_eq_false hkeep]

lemma pruneTimestamps_dec (w : RateWindow) {now v m : Nat}
    (hmem : m ∈ pruneTimestamps now w) (hnv : now ≤ v)
    (hv : m + w.intervalDuration ≤ v) :
    (pruneTimestamps v w).length < (pruneTimestamps now w).length := by
  rw [pruneTimestamps_later w hnv]
  exact filter_length_lt_of_mem hmem (decide_eq_false (by omega))

lemma window_headroom (w : RateWindow) (now d : Nat)
    (hcap : 0 < w.capacity)
    (hlen : w.timestamps.length ≤ w.capacity)
    (hts : ∀ t ∈ w.timestamps, t ≤ now)
    (hd : (pruneTimestamps now w).length = w.capacity →
      w.intervalDuration - (now - (oldestOf (pruneTimestamps now w)).getD 0) ≤ d) :
    (pruneTimestamps (now + d) w).length < w.capacity := by
  by_cases hsat : (pruneTimestamps now w).length = w.capacity
  · have hne : pruneTimestamps now w ≠ [] := by
      intro h0
      rw [h0] at hsat
      simp at hsat
      omega
    obtain ⟨m, hm, hmem, _⟩ := oldestOf_spec hne
    have hg : (oldestOf (pruneTimestamps now w)).getD 0 = m := by rw [hm]; rfl
    have hdm := hd hsat
    rw [hg] at hdm
    obtain ⟨hmemts, hlt⟩ := pruneTimestamps_mem hmem
    have hmnow : m ≤ now := hts m hmemts
    have hbound : m + w.intervalDuration ≤ now + d := by omega
    have hdec := pruneTimestamps_dec w hmem (Nat.le_add_right now d) hbound
    omega
  · have h1 : (pruneTimestamps now w).length < w.capacity :=
      Nat.lt_of_le_of_ne (Nat.le_trans (pruneTimestamps_length_le now w) hlen) hsat
    exact Nat.lt_of_le_of_lt (pruneTimestamps_length_mono w (Nat.le_add_right now d)) h1

/-- C7: when the credential-pair window is saturated (pruned count equals
its capacity), acquire() keeps waiting — its atomic step refuses to grant —
at every instant before the window's oldest remaining timestamp leaves the
trailing interval; the wait computed at `now` equals
`intervalDuration - (now - oldestRemainingTimestamp)` for the saturated
window, and the larger of the two such waits when the access-token window
is saturated as well (the symmetric statement for a saturated token window
holds by exchanging the two windows). -/
theorem c7_saturated_wait (now : Nat) (s : DualLimiter)
    (hcapA : 0 < s.windowA.capacity)
    (hsatA : (pruneTimestamps now s.windowA).length = s.windowA.capacity) :
    (∀ u, now ≤ u →
      u < (oldestOf (pruneTimestamps now s.windowA)).getD 0 + s.windowA.intervalDuration →
      isWaitStep (acquireStep u s) = true) ∧
    (0 < s.windowB.capacity →
      (pruneTimestamps now s.windowB).length = s.windowB.capacity →
      acquireStep now s = .wait (Nat.max
        (s.windowA.intervalDuration -
          (now - (oldestOf (pruneTimestamps now s.windowA)).getD 0))
        (s.windowB.intervalDuration -
          (now - (oldestOf (pruneTimestamps now s.windowB)).getD 0)))) ∧
    ((pruneTimestamps now s.windowB).length ≠ s.windowB.capacity →
      acquireStep now s = .wait
        (s.windowA.intervalDuration -
          (now - (oldestOf (pruneTimestamps now s.windowA)).getD 0))) := by
  have hneA : pruneTimestamps now s.windowA ≠ [] := by
    intro h0
    rw [h0] at hsatA
    simp at hsatA
    omega
  obtain ⟨mA, hmA, hmemA, hminA⟩ := oldestOf_spec hneA
  have hgA : (oldestOf (pruneTimestamps now s.windowA)).getD 0 = mA := by rw [hmA]; rfl
  refine ⟨?_, ?_, ?_⟩
  · intro u hu1 hu2
    rw [hgA] at hu2
    have hstable := pruneTimestamps_stable s.windowA hu1 hminA hu2
    apply acquireStep_wait_of_satA u s
    rw [hstable]
    exact hsatA
  · intro hcapB hsatB
    have hneB : pruneTimestamps now s.windowB ≠ [] := by
      intro h0
      rw [h0] at hsatB
      simp at hsatB
      omega
    obtain ⟨mB, hmB, _, _⟩ := oldestOf_spec hneB
    have hgB : (oldestOf (pruneTimestamps now s.windowB)).getD 0 = mB := by rw [hmB]; rfl
    rw [hgA, hgB]
    unfold acquireStep
    rw [if_pos (Or.inl hsatA), if_pos hsatA, if_pos hsatB,
      waitNeeded_eq hmA, waitNeeded_eq hmB]
  · intro hnsatB
    rw [hgA]
    unfold acquireStep
    rw [if_pos (Or.inl hsatA), if_pos hsatA, if_neg hnsatB, waitNeeded_eq hmA]
    congr 1
    exact Nat.max_eq_left (Nat.zero_le _)

/-- C7 (witness): a window of capacity 1 holding timestamp 3 at instant 5
forces the wait 10 - (5 - 3) = 8, and a re-attempt at instant 7 (before
instant 13, when the oldest timestamp leaves the interval) still waits. -/
theorem c7_saturated_wait_witness :
    acquireStep 5 ⟨⟨1, 10, [3]⟩, ⟨1, 10, []⟩⟩ = .wait 8 ∧
    isWaitStep (acquireStep 7 ⟨⟨1, 10, [3]⟩, ⟨1, 10, []⟩⟩) = true := by
  have h := c7_saturated_wait 5 ⟨⟨1, 10, [3]⟩, ⟨1, 10, []⟩⟩ (by decide) (by decide)
  constructor
  · exact (h.2.2 (by decide)).trans (by decide)
  · exact h.1 7 (by decide) (by decide)

/-- C8: acquire() has no error outcome — its step type only delays or
grants — and from every well-formed controller state (positive capacities,
at most capacity-many recorded timestamps per window, no timestamps from
the future) it returns with a grant after at most one suspension: two
rounds of fuel always suffice. -/
theorem c8_acquire_total (now : Nat) (s : DualLimiter)
    (hcapA : 0 < s.windowA.capacity) (hcapB : 0 < s.windowB.capacity)
    (hlenA : s.windowA.timestamps.length ≤ s.windowA.capacity)
    (hlenB : s.windowB.timestamps.length ≤ s.windowB.capacity)
    (htsA : ∀ t ∈ s.windowA.timestamps, t ≤ now)
    (htsB : ∀ t ∈ s.windowB.timestamps, t ≤ now) :
    (acquireFuel 2 now s).isSome = true := by
  cases hstep0 : acquireStep now s with
  | granted s2 => simp [acquireFuel, hstep0]
  | wait d =>
    have hstep := hstep0
    unfold acquireStep at hstep
    by_cases hc : (pruneTimestamps now s.windowA).length = s.windowA.capacity ∨
        (pruneTimestamps now s.windowB).length = s.windowB.capacity
    · rw [if_pos hc] at hstep
      have hd := (AcquireStep.wait.inj hstep).symm
      have hdA : (pruneTimestamps now s.windowA).length = s.windowA.capacity →
          s.windowA.intervalDuration -
            (now - (oldestOf (pruneTimestamps now s.windowA)).getD 0) ≤ d := by
        intro hsA
        have hne : pruneTimestamps now s.windowA ≠ [] := by
          intro h0
          rw [h0] at hsA
          simp at hsA
          omega
        obtain ⟨m, hm, _, _⟩ := oldestOf_spec hne
        have hg : (oldestOf (pruneTimestamps now s.windowA)).getD 0 = m := by rw [hm]; rfl
        rw [hg, hd, if_pos hsA, waitNeeded_eq hm]
        exact Nat.le_max_left _ _
      have hdB : (pruneTimestamps now s.windowB).length = s.windowB.capacity →
          s.windowB.intervalDuration -
            (now - (oldestOf (pruneTimestamps now s.windowB)).getD 0) ≤ d := by
        intro hsB
        have hne : pruneTimestamps now s.windowB ≠ [] := by
          intro h0
          rw [h0] at hsB
          simp at hsB
          omega
        obtain ⟨m, hm, _, _⟩ := oldestOf_spec hne
        have hg : (oldestOf (pruneTimestamps now s.windowB)).getD 0 = m := by rw [hm]; rfl
        rw [hg, hd, if_pos hsB, waitNeeded_eq hm]
        exact Nat.le_max_right _ _
      have hheadA := window_headroom s.windowA now d hcapA hlenA htsA hdA
      have hheadB := window_headroom s.windowB now d hcapB hlenB htsB hdB
      have hcond2 : ¬ ((pruneTimestamps (now + d) s.windowA).length = s.windowA.capacity ∨
          (pruneTimestamps (now + d) s.windowB).length = s.windowB.capacity) := by
        push_neg
        exact ⟨Nat.ne_of_lt hheadA, Nat.ne_of_lt hheadB⟩
      have hstep2 : ∃ s2, acquireStep (now + d) s = .granted s2 := by
        unfold acquireStep
        rw [if_neg hcond2]
        exact ⟨_, rfl⟩
      obtain ⟨s2, hstep2⟩ := hstep2
      simp [acquireFuel, hstep0, hstep2]
    · rw [if_neg hc] at hstep
      exact AcquireStep.noConfusion hstep

/-- C8 (witness): the theorem at a concrete saturated state — both
capacity-1 windows full at instant 5 — where acquire() grants after one
suspension. -/
theorem c8_acquire_total_witness :
    (acquireFuel 2 5 ⟨⟨1, 10, [3]⟩, ⟨1, 10, [4]⟩⟩).isSome = true :=
  c8_acquire_total 5 ⟨⟨1, 10, [3]⟩, ⟨1, 10, [4]⟩⟩ (by decide) (by decide)
    (by decide) (by decide) (by decide) (by decide)
